import Mathlib

/-!
# Verification of the financial-news analysis app

Shallow embedding of the repository: the agent pipeline of
`services/geminiService.ts` (News Scout, Verification, Macro Analyst, and the
orchestrator, in both file variants), the `types.ts` data model, and the UI
logic of `App.tsx` (`handleRunAnalysis`, `handleDownloadJson`, the trigger
button) together with faithful models of the browser built-ins `JSON.parse`
and `JSON.stringify(·, null, 2)` that the code relies on.

Network calls to the hosted model are represented by an environment that
records, for each of the three `generateContent` call sites, whether the call
throws or returns a response text.  JavaScript exceptions are represented
explicitly, distinguishing `Error` instances (which carry a message) from
arbitrary thrown values.
-/

/-! ## JSON values

A model of JavaScript JSON data as consumed by `JSON.parse` and produced by
`JSON.stringify`.  Numbers are modelled as integers: the only number the
declared schema mentions is the integer `importance_score`, and no claim
involves fractional values. -/

inductive Json where
  | null : Json
  | bool (b : Bool) : Json
  | num (n : Int) : Json
  | str (s : String) : Json
  | arr (elems : List Json) : Json
  | obj (fields : List (String × Json)) : Json

/-- JSON insignificant whitespace. -/
def isWs (c : Char) : Bool := c = ' ' || c = '\n' || c = '\t' || c = '\r'

/-- Drop leading JSON whitespace. -/
def skipWs : List Char → List Char
  | [] => []
  | c :: cs => if isWs c then skipWs cs else c :: cs

/-- Value of one hexadecimal digit. -/
def hexVal (c : Char) : Option Nat :=
  if '0' ≤ c ∧ c ≤ '9' then some (c.toNat - 48)
  else if 'a' ≤ c ∧ c ≤ 'f' then some (c.toNat - 87)
  else if 'A' ≤ c ∧ c ≤ 'F' then some (c.toNat - 55)
  else none

/-- Decoding of a single-character JSON string escape (after the backslash). -/
def escDecode (c : Char) : Option Char :=
  if c = '"' then some '"'
  else if c = '\\' then some '\\'
  else if c = '/' then some '/'
  else if c = 'b' then some (Char.ofNat 8)
  else if c = 'f' then some (Char.ofNat 12)
  else if c = 'n' then some '\n'
  else if c = 'r' then some '\r'
  else if c = 't' then some '\t'
  else none

/-- Parse the body of a JSON string literal (the opening quote already
consumed); returns the decoded characters and the input remaining after the
closing quote. -/
def parseStrBody : List Char → Option (List Char × List Char)
  | [] => none
  | c :: r =>
    if c = '"' then some ([], r)
    else if c = '\\' then
      match r with
      | 'u' :: h1 :: h2 :: h3 :: h4 :: r1 =>
        match hexVal h1, hexVal h2, hexVal h3, hexVal h4 with
        | some a, some b, some c2, some d =>
          (parseStrBody r1).map
            (fun p => (Char.ofNat (((a * 16 + b) * 16 + c2) * 16 + d) :: p.1, p.2))
        | _, _, _, _ => none
      | e :: r1 =>
        match escDecode e with
        | some ch => (parseStrBody r1).map (fun p => (ch :: p.1, p.2))
        | none => none
      | [] => none
    else (parseStrBody r).map (fun p => (c :: p.1, p.2))
  termination_by structural l => l

/-- Accumulate a run of decimal digits. -/
def parseNatAux : Nat → List Char → Nat × List Char
  | acc, [] => (acc, [])
  | acc, c :: r =>
    if c.isDigit then parseNatAux (acc * 10 + (c.toNat - 48)) r else (acc, c :: r)

/-- Parse a nonempty run of decimal digits. -/
def parseNat : List Char → Option (Nat × List Char)
  | [] => none
  | c :: r => if c.isDigit then some (parseNatAux (c.toNat - 48) r) else none

mutual

/-- Fuel-indexed parser for one JSON value; returns the value and the
remaining input. -/
def parseVal : Nat → List Char → Option (Json × List Char)
  | 0, _ => none
  | fuel + 1, l =>
    match skipWs l with
    | [] => none
    | c :: r =>
      if c = 'n' then
        match r with
        | 'u' :: 'l' :: 'l' :: r1 => some (.null, r1)
        | _ => none
      else if c = 't' then
        match r with
        | 'r' :: 'u' :: 'e' :: r1 => some (.bool true, r1)
        | _ => none
      else if c = 'f' then
        match r with
        | 'a' :: 'l' :: 's' :: 'e' :: r1 => some (.bool false, r1)
        | _ => none
      else if c = '"' then
        (parseStrBody r).map (fun p => (.str (String.mk p.1), p.2))
      else if c = '[' then
        match skipWs r with
        | ']' :: r1 => some (.arr [], r1)
        | r2 => (parseElems fuel r2).map (fun p => (.arr p.1, p.2))
      else if c = '\x7b' then
        match skipWs r with
        | '\x7d' :: r1 => some (.obj [], r1)
        | r2 => (parseFields fuel r2).map (fun p => (.obj p.1, p.2))
      else if c = '-' then
        match parseNat r with
        | some (n, r1) => some (.num (-(n : Int)), r1)
        | none => none
      else if c.isDigit then
        match parseNat (c :: r) with
        | some (n, r1) => some (.num (n : Int), r1)
        | none => none
      else none

/-- Fuel-indexed parser for the elements of a nonempty JSON array (the opening
bracket already consumed, the input known not to start with a closing
bracket). -/
def parseElems : Nat → List Char → Option (List Json × List Char)
  | 0, _ => none
  | fuel + 1, l =>
    match parseVal fuel l with
    | none => none
    | some (v, r) =>
      match skipWs r with
      | ',' :: r1 =>
        match parseElems fuel r1 with
        | some (vs, r2) => some (v :: vs, r2)
        | none => none
      | ']' :: r1 => some ([v], r1)
      | _ => none

/-- Fuel-indexed parser for the members of a nonempty JSON object. -/
def parseFields : Nat → List Char → Option (List (String × Json) × List Char)
  | 0, _ => none
  | fuel + 1, l =>
    match skipWs l with
    | '"' :: r =>
      match parseStrBody r with
      | none => none
      | some (k, r1) =>
        match skipWs r1 with
        | ':' :: r2 =>
          match parseVal fuel r2 with
          | none => none
          | some (v, r3) =>
            match skipWs r3 with
            | ',' :: r4 =>
              match parseFields fuel r4 with
              | some (kvs, r5) => some ((String.mk k, v) :: kvs, r5)
              | none => none
            | '\x7d' :: r4 => some ([(String.mk k, v)], r4)
            | _ => none
        | _ => none
    | _ => none

end

/-- Model of the browser built-in `JSON.parse`: `none` models a thrown
`SyntaxError`.  Trailing non-whitespace input is rejected, as `JSON.parse`
does. -/
def parseJson (s : String) : Option Json :=
  match parseVal (s.data.length + 1) s.data with
  | some (j, rest) => if skipWs rest = [] then some j else none
  | none => none

example : parseJson "null" = some .null := rfl
example : parseJson " [ ] " = some (.arr []) := rfl
example : parseJson "[1, -20]" = some (.arr [.num 1, .num (-20)]) := rfl
example : parseJson "\x7b\"a\": true\x7d" = some (.obj [("a", .bool true)]) := rfl
example : parseJson "not json" = none := rfl
example : parseJson "[1,]" = none := rfl
example : parseJson "\"a\\nb\"" = some (.str "a\nb") := rfl


/-- The whitespace set of JavaScript `String.prototype.trim` (the common
members: space, tab, line feed, carriage return, vertical tab, form feed,
no-break space). -/
def jsIsWs (c : Char) : Bool :=
  c = ' ' || c = '\t' || c = '\n' || c = '\r' || c.toNat = 11 || c.toNat = 12 ||
    c.toNat = 160

/-- Model of JavaScript `String.prototype.trim`: drop leading and trailing
whitespace. -/
def jsTrim (s : String) : String :=
  String.mk (((s.data.dropWhile jsIsWs).reverse.dropWhile jsIsWs).reverse)

example : jsTrim "  a b \n " = "a b" := rfl
example : jsTrim "" = "" := rfl

/-! ## Data model (`types.ts`)

The structures mirror the `MacroAnalysisItem` / `MacroAnalysisResult`
interfaces of `types.ts` (the variant without `importance_score`, the one the
UI imports).  TypeScript performs no runtime validation, so the app itself
holds raw `Json`; the decoders below formalize conformance of a `Json` value
to the declared interfaces. -/

structure MacroAnalysisItem where
  news_summary : String
  identified_macro_factors : List String
  impact_analysis : String

structure MacroAnalysisResult where
  macro_analysis : List MacroAnalysisItem

/-- A JSON array of strings, decoded. -/
def decodeFactors : List Json → Option (List String)
  | [] => some []
  | .str s :: rest => (decodeFactors rest).map (fun l => s :: l)
  | _ => none

/-- A JSON value conforming to the `MacroAnalysisItem` interface. -/
def decodeItem (j : Json) : Option MacroAnalysisItem :=
  match j with
  | .obj fs =>
    match fs.lookup "news_summary", fs.lookup "identified_macro_factors",
          fs.lookup "impact_analysis" with
    | some (.str ns), some (.arr facs), some (.str ia) =>
      (decodeFactors facs).map (fun l => ⟨ns, l, ia⟩)
    | _, _, _ => none
  | _ => none

def decodeItems : List Json → Option (List MacroAnalysisItem)
  | [] => some []
  | j :: rest =>
    match decodeItem j, decodeItems rest with
    | some i, some is2 => some (i :: is2)
    | _, _ => none

/-- A JSON value conforming to the `MacroAnalysisResult` interface. -/
def decodeResult (j : Json) : Option MacroAnalysisResult :=
  match j with
  | .obj fs =>
    match fs.lookup "macro_analysis" with
    | some (.arr items) => (decodeItems items).map (fun l => ⟨l⟩)
    | _ => none
  | _ => none

/-! ## JavaScript exceptions and the network environment

`JsError.error m` models an `Error` instance whose `message` is `m`;
`JsError.nonError` models any other thrown value.  A `ModelEnv` fixes, for one
run, the outcome of each of the three `ai.models.generateContent` call sites
in `services/geminiService.ts`: either the SDK call throws (`Except.error`,
the thrown value being irrelevant because every agent catches it) or it
returns a response whose `text` is the given string. -/

inductive JsError where
  | error (message : String) : JsError
  | nonError : JsError
  deriving DecidableEq

structure ModelEnv where
  scoutResp : Except Unit String
  verifyResp : Except Unit String
  analystResp : Except Unit String

/-- Observable actions of one run: a `setStatus` callback invocation, or one
of the three `generateContent` call sites being reached (for Verification and
Analysis, with the news text interpolated into the prompt). -/
inductive Event where
  | status (message : String) : Event
  | callScout : Event
  | callVerify (input : String) : Event
  | callAnalyst (input : String) : Event
  deriving DecidableEq

/-! ## Agents (`services/geminiService.ts`) -/

def scoutFailMsg : String := "News Scout agent failed to retrieve news."
def noContentMsg : String := "News Scout returned no content."
def verifyFailMsg : String :=
  "Verification agent failed. It may have found fake, inaccurate, or old news."
def emptyRespMsg : String := "Macro Analyst returned an empty response."
def analystFailMsg : String :=
  "Macro Analyst agent failed to generate analysis. The model may have returned invalid JSON."
def unknownOrchMsg : String := "An unknown error occurred during orchestration."

/-- `runNewsScoutAgent` (both file variants): returns `response.text`, or on
any SDK failure catches it and throws its own `Error`. -/
def runNewsScoutAgent (env : ModelEnv) : List Event × Except JsError String :=
  ([.callScout],
    match env.scoutResp with
    | .ok t => .ok t
    | .error _ => .error (.error scoutFailMsg))

/-- `runVerificationAgent` (first file variant).  As in the source, the body
returns `unverifiedNewsText` — the input — whenever the SDK call succeeds; the
response text is never inspected.  Only an SDK failure reaches the catch
block. -/
def runVerificationAgent (env : ModelEnv) (unverifiedNewsText : String) :
    List Event × Except JsError String :=
  ([.callVerify unverifiedNewsText],
    match env.verifyResp with
    | .ok _responseText => .ok unverifiedNewsText
    | .error _ => .error (.error verifyFailMsg))

/-- The `try` body of `runMacroAnalystAgent` after the SDK call returned
`respText`: trim, throw on empty, otherwise `JSON.parse`.  The string is a
stand-in for the engine-specific `SyntaxError` message of `JSON.parse`; the
catch block below discards it. -/
def macroAnalystTry (respText : String) : Except JsError Json :=
  let resultJson := jsTrim respText
  if resultJson = "" then .error (.error emptyRespMsg)
  else
    match parseJson resultJson with
    | some j => .ok j
    | none => .error (.error "SyntaxError")

/-- `runMacroAnalystAgent` (both file variants): every failure inside the
`try` block — SDK failure, the empty-response throw, or a `JSON.parse`
`SyntaxError` — is caught by the agent's own catch block and replaced by the
one generic `Error`. -/
def runMacroAnalystAgent (env : ModelEnv) (newsItemsText : String) :
    List Event × Except JsError Json :=
  ([.callAnalyst newsItemsText],
    match env.analystResp with
    | .error _ => .error (.error analystFailMsg)
    | .ok respText =>
      match macroAnalystTry respText with
      | .ok j => .ok j
      | .error _ => .error (.error analystFailMsg))

/-! ## Orchestrator (`runAnalysisOrchestrator`, both variants) -/

/-- The orchestrator's catch block: an `Error` is re-thrown unchanged, any
other thrown value is replaced by a generic `Error`. -/
def orchCatch (e : JsError) : JsError :=
  match e with
  | .error m => .error m
  | .nonError => .error unknownOrchMsg

def scoutStatusMsg : String := "Orchestrator: Calling News Scout Agent..."
def verifyStatusMsg : String := "Orchestrator: Calling Verification Agent..."
def analystStatusMsg : String := "Orchestrator: Calling Macro Analyst Agent..."

/-- First file variant: Scout, then Verification, then Macro Analyst, a
`setStatus` call immediately before each; the scout output is checked for
emptiness (`!newsText || newsText.trim() === ""`). -/
def runAnalysisOrchestrator (env : ModelEnv) : List Event × Except JsError Json :=
  let scout := runNewsScoutAgent env
  match scout.2 with
  | .error err => ([.status scoutStatusMsg] ++ scout.1, .error (orchCatch err))
  | .ok newsText =>
    if newsText = "" || jsTrim newsText = "" then
      ([.status scoutStatusMsg] ++ scout.1, .error (orchCatch (.error noContentMsg)))
    else
      let verif := runVerificationAgent env newsText
      match verif.2 with
      | .error err =>
        ([.status scoutStatusMsg] ++ scout.1 ++ [.status verifyStatusMsg] ++ verif.1,
          .error (orchCatch err))
      | .ok verifiedNewsText =>
        let ana := runMacroAnalystAgent env verifiedNewsText
        match ana.2 with
        | .error err =>
          ([.status scoutStatusMsg] ++ scout.1 ++ [.status verifyStatusMsg] ++ verif.1 ++
            [.status analystStatusMsg] ++ ana.1, .error (orchCatch err))
        | .ok analysisResult =>
          ([.status scoutStatusMsg] ++ scout.1 ++ [.status verifyStatusMsg] ++ verif.1 ++
            [.status analystStatusMsg] ++ ana.1, .ok analysisResult)

/-- Second file variant: identical but with no Verification step — the scout
text goes directly to the Macro Analyst. -/
def runAnalysisOrchestratorNoVerify (env : ModelEnv) :
    List Event × Except JsError Json :=
  let scout := runNewsScoutAgent env
  match scout.2 with
  | .error err => ([.status scoutStatusMsg] ++ scout.1, .error (orchCatch err))
  | .ok newsText =>
    if newsText = "" || jsTrim newsText = "" then
      ([.status scoutStatusMsg] ++ scout.1, .error (orchCatch (.error noContentMsg)))
    else
      let ana := runMacroAnalystAgent env newsText
      match ana.2 with
      | .error err =>
        ([.status scoutStatusMsg] ++ scout.1 ++ [.status analystStatusMsg] ++ ana.1,
          .error (orchCatch err))
      | .ok analysisResult =>
        ([.status scoutStatusMsg] ++ scout.1 ++ [.status analystStatusMsg] ++ ana.1,
          .ok analysisResult)

/-! ## UI state (`App.tsx`) -/

structure AppState where
  isLoading : Bool
  statusMessage : String
  result : Option Json
  error : Option String

/-- The four `useState` initial values. -/
def initialAppState : AppState :=
  { isLoading := true, statusMessage := "Initiating analysis...",
    result := none, error := none }

/-- Replay the `setStatusMessage` callback invocations recorded in a run's
event list onto the UI state. -/
def applyStatuses (s : AppState) : List Event → AppState
  | [] => s
  | .status m :: rest => applyStatuses { s with statusMessage := m } rest
  | _ :: rest => applyStatuses s rest

/-- The opening lines of `handleRunAnalysis`, executed before any step of the
run: ensure the loading flag, clear the previous result and error. -/
def startRun (s : AppState) : AppState :=
  let s1 := if !s.isLoading then { s with isLoading := true } else s
  { s1 with result := none, error := none }

def unknownErrMsg : String := "An unknown error occurred."
def couldNotCompleteMsg : String := "The analysis could not be completed."

/-- JavaScript truthiness of a JSON value, as tested by
`if (analysisResult)`. -/
def jsTruthy (j : Json) : Bool :=
  match j with
  | .null => false
  | .bool b => b
  | .num n => n != 0
  | .str s => s != ""
  | .arr _ => true
  | .obj _ => true

/-- `handleRunAnalysis`: clear state, run the orchestrator (statuses stream
to the UI), then set result or error; `finally` clears the loading flag. -/
def handleRunAnalysis (env : ModelEnv) (s : AppState) : AppState :=
  let s1 := startRun s
  let run := runAnalysisOrchestrator env
  let s2 := applyStatuses s1 run.1
  let s3 :=
    match run.2 with
    | .ok analysisResult =>
      if jsTruthy analysisResult then
        { s2 with result := some analysisResult, statusMessage := "Analysis complete." }
      else
        { s2 with error := some couldNotCompleteMsg, statusMessage := "Analysis failed." }
    | .error e =>
      let errorMessage := match e with | .error m => m | .nonError => unknownErrMsg
      { s2 with error := some ("An error occurred: " ++ errorMessage),
                statusMessage := "Analysis failed." }
  { s3 with isLoading := false }

/-- The trigger button's `disabled={isLoading}` attribute. -/
def triggerDisabled (s : AppState) : Bool := s.isLoading

/-- Clicking the trigger button: a disabled button fires no `onClick`, an
enabled one runs `handleRunAnalysis`. -/
def clickTrigger (env : ModelEnv) (s : AppState) : AppState :=
  if triggerDisabled s then s else handleRunAnalysis env s

/-- The render condition of `ResultDisplay`: `result && !isLoading`. -/
def showsResult (s : AppState) : Bool := s.result.isSome && !s.isLoading

/-- The render condition of the error banner: `error` non-null. -/
def showsError (s : AppState) : Bool := s.error.isSome

/-! ## Sanity checks of the embedding on concrete runs -/

example :
    (runAnalysisOrchestrator
      ⟨.ok "news", .ok "ok", .ok "\x7b\"macro_analysis\": []\x7d"⟩).2 =
    .ok (.obj [("macro_analysis", .arr [])]) := rfl

example :
    (runAnalysisOrchestrator ⟨.error (), .ok "ok", .ok "x"⟩).2 =
    .error (.error scoutFailMsg) := rfl

/-! ## Case analysis of the orchestrator -/

theorem trim_ne_imp_ne (t : String) (h : jsTrim t ≠ "") : t ≠ "" := by
  intro h0
  subst h0
  exact h rfl

theorem runNewsScoutAgent_fst (env : ModelEnv) :
    (runNewsScoutAgent env).1 = [.callScout] := rfl

theorem runVerificationAgent_fst (env : ModelEnv) (t : String) :
    (runVerificationAgent env t).1 = [.callVerify t] := rfl

theorem runMacroAnalystAgent_fst (env : ModelEnv) (t : String) :
    (runMacroAnalystAgent env t).1 = [.callAnalyst t] := rfl

theorem orch_scout_sdk_fail (env : ModelEnv) (h : env.scoutResp = .error ()) :
    runAnalysisOrchestrator env =
      ([.status scoutStatusMsg, .callScout], .error (.error scoutFailMsg)) := by
  simp [runAnalysisOrchestrator, runNewsScoutAgent, h, orchCatch]

theorem orch_scout_empty (env : ModelEnv) (t : String)
    (h : env.scoutResp = .ok t) (ht : jsTrim t = "") :
    runAnalysisOrchestrator env =
      ([.status scoutStatusMsg, .callScout], .error (.error noContentMsg)) := by
  simp [runAnalysisOrchestrator, runNewsScoutAgent, h, ht, orchCatch]

theorem orch_verify_sdk_fail (env : ModelEnv) (t : String)
    (h : env.scoutResp = .ok t) (ht : jsTrim t ≠ "")
    (hv : env.verifyResp = .error ()) :
    runAnalysisOrchestrator env =
      ([.status scoutStatusMsg, .callScout, .status verifyStatusMsg, .callVerify t],
        .error (.error verifyFailMsg)) := by
  have hne := trim_ne_imp_ne t ht
  simp [runAnalysisOrchestrator, runNewsScoutAgent, runVerificationAgent,
    h, ht, hne, hv, orchCatch]

theorem orch_reaches_analyst (env : ModelEnv) (t v : String)
    (h : env.scoutResp = .ok t) (ht : jsTrim t ≠ "")
    (hv : env.verifyResp = .ok v) :
    runAnalysisOrchestrator env =
      ([.status scoutStatusMsg, .callScout, .status verifyStatusMsg, .callVerify t,
        .status analystStatusMsg, .callAnalyst t],
        ((runMacroAnalystAgent env t).2.mapError orchCatch)) := by
  have hne := trim_ne_imp_ne t ht
  cases hm : (runMacroAnalystAgent env t).2 with
  | error e =>
    simp [runAnalysisOrchestrator, runNewsScoutAgent, runVerificationAgent,
      runMacroAnalystAgent_fst, h, ht, hne, hv, hm, Except.mapError]
  | ok j =>
    simp [runAnalysisOrchestrator, runNewsScoutAgent, runVerificationAgent,
      runMacroAnalystAgent_fst, h, ht, hne, hv, hm, Except.mapError]

theorem orchNV_scout_sdk_fail (env : ModelEnv) (h : env.scoutResp = .error ()) :
    runAnalysisOrchestratorNoVerify env =
      ([.status scoutStatusMsg, .callScout], .error (.error scoutFailMsg)) := by
  simp [runAnalysisOrchestratorNoVerify, runNewsScoutAgent, h, orchCatch]

theorem orchNV_scout_empty (env : ModelEnv) (t : String)
    (h : env.scoutResp = .ok t) (ht : jsTrim t = "") :
    runAnalysisOrchestratorNoVerify env =
      ([.status scoutStatusMsg, .callScout], .error (.error noContentMsg)) := by
  simp [runAnalysisOrchestratorNoVerify, runNewsScoutAgent, h, ht, orchCatch]

theorem orchNV_reaches_analyst (env : ModelEnv) (t : String)
    (h : env.scoutResp = .ok t) (ht : jsTrim t ≠ "") :
    runAnalysisOrchestratorNoVerify env =
      ([.status scoutStatusMsg, .callScout, .status analystStatusMsg, .callAnalyst t],
        ((runMacroAnalystAgent env t).2.mapError orchCatch)) := by
  have hne := trim_ne_imp_ne t ht
  cases hm : (runMacroAnalystAgent env t).2 with
  | error e =>
    simp [runAnalysisOrchestratorNoVerify, runNewsScoutAgent,
      runMacroAnalystAgent_fst, h, ht, hne, hm, Except.mapError]
  | ok j =>
    simp [runAnalysisOrchestratorNoVerify, runNewsScoutAgent,
      runMacroAnalystAgent_fst, h, ht, hne, hm, Except.mapError]

/-! ## UI state lemmas -/

theorem applyStatuses_result (evts : List Event) (s : AppState) :
    (applyStatuses s evts).result = s.result := by
  induction evts generalizing s with
  | nil => rfl
  | cons e rest ih => cases e <;> simp [applyStatuses, ih]

theorem applyStatuses_error (evts : List Event) (s : AppState) :
    (applyStatuses s evts).error = s.error := by
  induction evts generalizing s with
  | nil => rfl
  | cons e rest ih => cases e <;> simp [applyStatuses, ih]

theorem startRun_result (s : AppState) : (startRun s).result = none := rfl

theorem startRun_error (s : AppState) : (startRun s).error = none := rfl

theorem startRun_isLoading (s : AppState) : (startRun s).isLoading = true := by
  by_cases h : s.isLoading <;> simp [startRun, h]

theorem handleRunAnalysis_isLoading (env : ModelEnv) (s : AppState) :
    (handleRunAnalysis env s).isLoading = false := rfl

theorem handleRunAnalysis_result (env : ModelEnv) (s : AppState) :
    (handleRunAnalysis env s).result =
      match (runAnalysisOrchestrator env).2 with
      | .ok v => if jsTruthy v then some v else none
      | .error _ => none := by
  unfold handleRunAnalysis
  cases h : (runAnalysisOrchestrator env).2 with
  | ok v =>
    by_cases hj : jsTruthy v <;>
      simp [h, hj, applyStatuses_result, startRun_result]
  | error e => simp [h, applyStatuses_result, startRun_result]

theorem handleRunAnalysis_error (env : ModelEnv) (s : AppState) :
    (handleRunAnalysis env s).error =
      match (runAnalysisOrchestrator env).2 with
      | .ok v => if jsTruthy v then none else some couldNotCompleteMsg
      | .error (.error m) => some ("An error occurred: " ++ m)
      | .error .nonError => some ("An error occurred: " ++ unknownErrMsg) := by
  unfold handleRunAnalysis
  cases h : (runAnalysisOrchestrator env).2 with
  | ok v =>
    by_cases hj : jsTruthy v <;>
      simp [h, hj, applyStatuses_error, startRun_error]
  | error e =>
    cases e <;> simp [h, applyStatuses_error, startRun_error]

/-! ## Claims -/

/-- C1: whenever the Scout step returns an empty or whitespace-only string,
`runAnalysisOrchestrator` fails with the "no content" error (`Error` message
"News Scout returned no content."), and the Analysis step is never invoked in
that run. -/
theorem claim1_scout_empty_fails_without_analysis (env : ModelEnv) (t : String)
    (hs : env.scoutResp = .ok t) (ht : jsTrim t = "") :
    (runAnalysisOrchestrator env).2 =
      .error (.error "News Scout returned no content.") ∧
    ∀ input, Event.callAnalyst input ∉ (runAnalysisOrchestrator env).1 := by
  rw [orch_scout_empty env t hs ht]
  exact ⟨rfl, fun i => by simp⟩

theorem claim1_witness :
    (runAnalysisOrchestrator ⟨.ok " \n ", .ok "x", .ok "y"⟩).2 =
      .error (.error "News Scout returned no content.") ∧
    ∀ input,
      Event.callAnalyst input ∉
        (runAnalysisOrchestrator ⟨.ok " \n ", .ok "x", .ok "y"⟩).1 :=
  claim1_scout_empty_fails_without_analysis _ " \n " rfl rfl

/-- C2: when any step throws, the remaining steps are skipped and the
orchestrator re-throws the failing step's `Error` with its message unmodified;
its catch block replaces a non-`Error` thrown value by the generic
orchestration error; and no call site is ever reached twice (no retry). -/
theorem claim2_first_failure_propagates (env : ModelEnv) :
    ((runNewsScoutAgent env).2 = .error (.error scoutFailMsg) →
      (runAnalysisOrchestrator env).2 = .error (.error scoutFailMsg) ∧
      (∀ i, Event.callVerify i ∉ (runAnalysisOrchestrator env).1) ∧
      (∀ i, Event.callAnalyst i ∉ (runAnalysisOrchestrator env).1)) ∧
    (∀ t, env.scoutResp = .ok t → jsTrim t ≠ "" →
      (runVerificationAgent env t).2 = .error (.error verifyFailMsg) →
      (runAnalysisOrchestrator env).2 = .error (.error verifyFailMsg) ∧
      (∀ i, Event.callAnalyst i ∉ (runAnalysisOrchestrator env).1)) ∧
    (∀ t v m, env.scoutResp = .ok t → jsTrim t ≠ "" → env.verifyResp = .ok v →
      (runMacroAnalystAgent env t).2 = .error (.error m) →
      (runAnalysisOrchestrator env).2 = .error (.error m)) ∧
    (∀ m, orchCatch (.error m) = .error m) ∧
    orchCatch .nonError = .error unknownOrchMsg ∧
    ((runAnalysisOrchestrator env).1.count .callScout ≤ 1 ∧
     (∀ i, (runAnalysisOrchestrator env).1.count (.callVerify i) ≤ 1) ∧
     (∀ i, (runAnalysisOrchestrator env).1.count (.callAnalyst i) ≤ 1)) := by
  refine ⟨?_, ?_, ?_, fun m => rfl, rfl, ?_⟩
  · intro hsf
    have hsc : env.scoutResp = .error () := by
      cases h : env.scoutResp with
      | ok t => simp [runNewsScoutAgent, h] at hsf
      | error u => cases u; rfl
    rw [orch_scout_sdk_fail env hsc]
    exact ⟨rfl, fun i => by simp, fun i => by simp⟩
  · intro t hs ht hvf
    have hv : env.verifyResp = .error () := by
      cases h : env.verifyResp with
      | ok v => simp [runVerificationAgent, h] at hvf
      | error u => cases u; rfl
    rw [orch_verify_sdk_fail env t hs ht hv]
    exact ⟨rfl, fun i => by simp⟩
  · intro t v m hs ht hv hm
    rw [orch_reaches_analyst env t v hs ht hv]
    simp [hm, Except.mapError, orchCatch]
  · rcases hsc : env.scoutResp with u | t
    · cases u
      rw [orch_scout_sdk_fail env hsc]
      refine ⟨by simp, fun i => by simp, fun i => by simp⟩
    · by_cases ht : jsTrim t = ""
      · rw [orch_scout_empty env t hsc ht]
        refine ⟨by simp, fun i => by simp, fun i => by simp⟩
      · rcases hv : env.verifyResp with u | v
        · cases u
          rw [orch_verify_sdk_fail env t hsc ht hv]
          refine ⟨by simp, fun i => ?_, fun i => by simp⟩
          by_cases hit : i = t <;> simp [hit, List.count_cons]
        · rw [orch_reaches_analyst env t v hsc ht hv]
          refine ⟨by simp, fun i => ?_, fun i => ?_⟩ <;>
            by_cases hit : i = t <;> simp [hit, List.count_cons]

theorem claim2_witness :
    (runAnalysisOrchestrator ⟨.error (), .ok "x", .ok "y"⟩).2 =
      .error (.error scoutFailMsg) ∧
    (∀ i, Event.callVerify i ∉
        (runAnalysisOrchestrator ⟨.error (), .ok "x", .ok "y"⟩).1) ∧
    (∀ i, Event.callAnalyst i ∉
        (runAnalysisOrchestrator ⟨.error (), .ok "x", .ok "y"⟩).1) :=
  (claim2_first_failure_propagates ⟨.error (), .ok "x", .ok "y"⟩).1 rfl

/-- C3 counterexample: the claim says the Verification step "throws when the
model's response signals a problem" and "fails precisely when verification
fails".  In the code the response text is never inspected: here the model's
response plainly signals a problem, yet the step does not throw — it succeeds
and returns the original input text. -/
theorem claim3_counterexample :
    (runVerificationAgent
      ⟨.ok "news", .ok "ERROR: the first story is fabricated. Stopping execution.",
        .ok "x"⟩
      "original news text").2 = .ok "original news text" := rfl

/-- C3 amended: `runVerificationAgent` returns exactly its original input text
unchanged whenever the underlying model call succeeds — regardless of what the
response says — and throws (with the fixed verification-failure message) only
when the model call itself throws. -/
theorem claim3_amended_identity_unless_call_throws (env : ModelEnv) (txt : String) :
    (∀ resp, env.verifyResp = .ok resp →
      (runVerificationAgent env txt).2 = .ok txt) ∧
    (env.verifyResp = .error () →
      (runVerificationAgent env txt).2 = .error (.error verifyFailMsg)) := by
  constructor
  · intro resp h
    simp [runVerificationAgent, h]
  · intro h
    simp [runVerificationAgent, h]

theorem claim3_witness :
    (runVerificationAgent ⟨.ok "s", .ok "any response", .ok "a"⟩ "txt").2 =
      .ok "txt" :=
  (claim3_amended_identity_unless_call_throws _ "txt").1 "any response" rfl

/-- C4 counterexample: when the Analysis response trims to the empty string
the orchestrator does fail, but the surfaced `Error` message is the analyst's
generic wrapped message, not "Macro Analyst returned an empty response." —
the inner empty-response throw happens inside the agent's `try` and is caught
and replaced by its own catch block. -/
theorem claim4_counterexample :
    (runAnalysisOrchestrator ⟨.ok "news", .ok "ok", .ok "  "⟩).2 =
      .error (.error analystFailMsg) ∧
    analystFailMsg ≠ "Macro Analyst returned an empty response." :=
  ⟨rfl, by decide⟩

/-- C4 amended: when the Analysis response trims to the empty string, the
`try` body does construct the error "Macro Analyst returned an empty
response.", but the agent's catch block replaces it, so the run fails with
the generic analyst failure message, and no result is produced. -/
theorem claim4_amended_empty_response_wrapped (env : ModelEnv) (t v r : String)
    (hs : env.scoutResp = .ok t) (ht : jsTrim t ≠ "")
    (hv : env.verifyResp = .ok v)
    (ha : env.analystResp = .ok r) (hr : jsTrim r = "") :
    macroAnalystTry r = .error (.error "Macro Analyst returned an empty response.") ∧
    (runAnalysisOrchestrator env).2 = .error (.error analystFailMsg) ∧
    ∀ j, (runAnalysisOrchestrator env).2 ≠ .ok j := by
  have h1 : macroAnalystTry r = .error (.error emptyRespMsg) := by
    simp [macroAnalystTry, hr]
  have h2 : (runMacroAnalystAgent env t).2 = .error (.error analystFailMsg) := by
    simp [runMacroAnalystAgent, ha, h1]
  rw [orch_reaches_analyst env t v hs ht hv]
  refine ⟨h1, ?_, ?_⟩ <;> simp [h2, Except.mapError, orchCatch]

theorem claim4_witness :
    macroAnalystTry " " = .error (.error "Macro Analyst returned an empty response.") ∧
    (runAnalysisOrchestrator ⟨.ok "n", .ok "v", .ok " "⟩).2 =
      .error (.error analystFailMsg) ∧
    ∀ j, (runAnalysisOrchestrator ⟨.ok "n", .ok "v", .ok " "⟩).2 ≠ .ok j :=
  claim4_amended_empty_response_wrapped _ "n" "v" " " rfl (by decide) rfl rfl rfl

/-- C5: when the Analysis response is non-empty but syntactically invalid
JSON, the run fails with the analyst's thrown error, the UI ends in the error
state (error banner shown with the message), and no result — partial or
otherwise — is displayed at the start of the run or at its end. -/
theorem claim5_invalid_json_error_state (env : ModelEnv) (s : AppState)
    (t v r : String)
    (hs : env.scoutResp = .ok t) (ht : jsTrim t ≠ "")
    (hv : env.verifyResp = .ok v) (ha : env.analystResp = .ok r)
    (hr : jsTrim r ≠ "") (hp : parseJson (jsTrim r) = none) :
    (runAnalysisOrchestrator env).2 = .error (.error analystFailMsg) ∧
    (handleRunAnalysis env s).error =
      some ("An error occurred: " ++ analystFailMsg) ∧
    showsError (handleRunAnalysis env s) = true ∧
    (handleRunAnalysis env s).result = none ∧
    showsResult (handleRunAnalysis env s) = false ∧
    showsResult (startRun s) = false := by
  have hm : (runMacroAnalystAgent env t).2 = .error (.error analystFailMsg) := by
    simp [runMacroAnalystAgent, ha, macroAnalystTry, hr, hp]
  have horch : (runAnalysisOrchestrator env).2 = .error (.error analystFailMsg) := by
    rw [orch_reaches_analyst env t v hs ht hv]
    simp [hm, Except.mapError, orchCatch]
  have hres : (handleRunAnalysis env s).result = none := by
    rw [handleRunAnalysis_result, horch]
  have herr : (handleRunAnalysis env s).error =
      some ("An error occurred: " ++ analystFailMsg) := by
    rw [handleRunAnalysis_error, horch]
  refine ⟨horch, herr, ?_, hres, ?_, ?_⟩
  · simp [showsError, herr]
  · simp [showsResult, hres]
  · simp [showsResult, startRun_result]

theorem claim5_witness :
    (runAnalysisOrchestrator ⟨.ok "n", .ok "v", .ok "oops"⟩).2 =
      .error (.error analystFailMsg) ∧
    (handleRunAnalysis ⟨.ok "n", .ok "v", .ok "oops"⟩ initialAppState).error =
      some ("An error occurred: " ++ analystFailMsg) ∧
    showsError (handleRunAnalysis ⟨.ok "n", .ok "v", .ok "oops"⟩ initialAppState) =
      true ∧
    (handleRunAnalysis ⟨.ok "n", .ok "v", .ok "oops"⟩ initialAppState).result =
      none ∧
    showsResult (handleRunAnalysis ⟨.ok "n", .ok "v", .ok "oops"⟩ initialAppState) =
      false ∧
    showsResult (startRun initialAppState) = false :=
  claim5_invalid_json_error_state _ initialAppState "n" "v" "oops" rfl (by decide)
    rfl rfl (by decide) rfl

/-- C6: every run of the orchestrator performs its steps in the fixed order
Scout — Verification (in the variant that has it) — Analysis, with exactly
one `setStatus` invocation immediately before each step, stopping after a
failing step; the run's event trace is always one of the listed sequential
prefixes (in the embedding, later steps are suspended on the value of earlier
ones, so trace order is execution order). -/
theorem claim6_fixed_order_status_before_each_step (env : ModelEnv) :
    ((runAnalysisOrchestrator env).1 = [.status scoutStatusMsg, .callScout] ∨
     (∃ t, env.scoutResp = .ok t ∧
       (runAnalysisOrchestrator env).1 =
         [.status scoutStatusMsg, .callScout,
          .status verifyStatusMsg, .callVerify t]) ∨
     (∃ t, env.scoutResp = .ok t ∧
       (runAnalysisOrchestrator env).1 =
         [.status scoutStatusMsg, .callScout,
          .status verifyStatusMsg, .callVerify t,
          .status analystStatusMsg, .callAnalyst t])) ∧
    ((runAnalysisOrchestratorNoVerify env).1 = [.status scoutStatusMsg, .callScout] ∨
     (∃ t, env.scoutResp = .ok t ∧
       (runAnalysisOrchestratorNoVerify env).1 =
         [.status scoutStatusMsg, .callScout,
          .status analystStatusMsg, .callAnalyst t])) := by
  constructor
  · rcases hsc : env.scoutResp with u | t
    · cases u
      rw [orch_scout_sdk_fail env hsc]
      exact Or.inl rfl
    · by_cases ht : jsTrim t = ""
      · rw [orch_scout_empty env t hsc ht]
        exact Or.inl rfl
      · rcases hv : env.verifyResp with u | v
        · cases u
          rw [orch_verify_sdk_fail env t hsc ht hv]
          exact Or.inr (Or.inl ⟨t, rfl, rfl⟩)
        · rw [orch_reaches_analyst env t v hsc ht hv]
          exact Or.inr (Or.inr ⟨t, rfl, rfl⟩)
  · rcases hsc : env.scoutResp with u | t
    · cases u
      rw [orchNV_scout_sdk_fail env hsc]
      exact Or.inl rfl
    · by_cases ht : jsTrim t = ""
      · rw [orchNV_scout_empty env t hsc ht]
        exact Or.inl rfl
      · rw [orchNV_reaches_analyst env t hsc ht]
        exact Or.inr ⟨t, rfl, rfl⟩

/-- C8: in every UI state with `isLoading = true` the trigger button is
disabled, and clicking it does not start a run — the state is unchanged, so a
second concurrent run cannot be started while one is in flight. -/
theorem claim8_loading_disables_trigger (env : ModelEnv) (s : AppState)
    (h : s.isLoading = true) :
    triggerDisabled s = true ∧ clickTrigger env s = s := by
  refine ⟨h, ?_⟩
  simp [clickTrigger, triggerDisabled, h]

theorem claim8_witness :
    triggerDisabled initialAppState = true ∧
    clickTrigger ⟨.ok "a", .ok "b", .ok "c"⟩ initialAppState = initialAppState :=
  claim8_loading_disables_trigger ⟨.ok "a", .ok "b", .ok "c"⟩ initialAppState rfl

/-- C9: `handleRunAnalysis` begins by clearing the previous result and error
(before any step executes, so nothing is displayed during the run), and the
result it ends with is independent of any previous state — a result created by
one run is never displayed during or after a later run. -/
theorem claim9_run_discards_previous_state (env : ModelEnv) (s s2 : AppState) :
    (startRun s).result = none ∧ (startRun s).error = none ∧
    showsResult (startRun s) = false ∧
    (handleRunAnalysis env s).result = (handleRunAnalysis env s2).result := by
  refine ⟨rfl, rfl, ?_, ?_⟩
  · simp [showsResult, startRun_result]
  · rw [handleRunAnalysis_result, handleRunAnalysis_result]

/-- C10: the Analysis step performs no client-side schema validation — any
model response whose trimmed text is non-empty and parses as JSON is returned
as the successful result, whatever its shape. -/
theorem claim10_no_schema_validation (env : ModelEnv) (txt r : String) (j : Json)
    (ha : env.analystResp = .ok r) (hne : jsTrim r ≠ "")
    (hp : parseJson (jsTrim r) = some j) :
    (runMacroAnalystAgent env txt).2 = .ok j := by
  simp [runMacroAnalystAgent, ha, macroAnalystTry, hne, hp]

theorem claim10_witness :
    (runMacroAnalystAgent ⟨.ok "a", .ok "b", .ok "[]"⟩ "news").2 = .ok (.arr []) ∧
    decodeResult (.arr []) = none :=
  ⟨claim10_no_schema_validation _ "news" "[]" (.arr []) rfl (by decide) rfl, rfl⟩

/-! ## Model of `JSON.stringify(value, null, 2)`

`escChar` follows the `QuoteJSONString` algorithm: quote and backslash are
escaped, the five named control characters get their short escapes, the
remaining control characters become `\u00XX` (lowercase hex), everything else
is emitted verbatim. -/

def escChar (c : Char) : List Char :=
  if c = '"' then ['\\', '"']
  else if c = '\\' then ['\\', '\\']
  else if c.toNat = 8 then ['\\', 'b']
  else if c.toNat = 9 then ['\\', 't']
  else if c.toNat = 10 then ['\\', 'n']
  else if c.toNat = 12 then ['\\', 'f']
  else if c.toNat = 13 then ['\\', 'r']
  else if c.toNat < 32 then
    ['\\', 'u', '0', '0', Nat.digitChar (c.toNat / 16), Nat.digitChar (c.toNat % 16)]
  else [c]

def emitStrBody : List Char → List Char
  | [] => []
  | c :: cs => escChar c ++ emitStrBody cs

/-- A JSON string literal for the given characters. -/
def emitStr (cs : List Char) : List Char := '"' :: (emitStrBody cs ++ ['"'])

/-- Decimal digits of `n`, most significant first, prepended to `acc`; the
structural fuel argument is kept at least `n`, which is always enough. -/
def natToDecAux : Nat → Nat → List Char → List Char
  | 0, n, acc => Nat.digitChar n :: acc
  | fuel + 1, n, acc =>
    if n < 10 then Nat.digitChar n :: acc
    else natToDecAux fuel (n / 10) (Nat.digitChar (n % 10) :: acc)

def natToDec (n : Nat) : List Char := natToDecAux n n []

/-- Decimal notation of an integer. -/
def emitInt (i : Int) : List Char :=
  if i < 0 then '-' :: natToDec i.natAbs else natToDec i.toNat

/-- The indentation produced by gap "  " at nesting depth `n`. -/
def ind2 (n : Nat) : List Char := List.replicate (2 * n) ' '

mutual

/-- `JSON.stringify(v, null, 2)` at nesting depth `ind`, as characters. -/
def emitVal : Nat → Json → List Char
  | _, .null => ['n', 'u', 'l', 'l']
  | _, .bool true => ['t', 'r', 'u', 'e']
  | _, .bool false => ['f', 'a', 'l', 's', 'e']
  | _, .num i => emitInt i
  | _, .str s => emitStr s.data
  | _, .arr [] => ['[', ']']
  | ind, .arr (x :: xs) =>
    ['[', '\n'] ++ emitElems (ind + 1) (x :: xs) ++ ('\n' :: ind2 ind) ++ [']']
  | _, .obj [] => ['\x7b', '\x7d']
  | ind, .obj (kv :: kvs) =>
    ['\x7b', '\n'] ++ emitFields (ind + 1) (kv :: kvs) ++ ('\n' :: ind2 ind) ++ ['\x7d']

/-- Array elements, one per line at indentation `ind`, comma-separated. -/
def emitElems : Nat → List Json → List Char
  | _, [] => []
  | ind, [x] => ind2 ind ++ emitVal ind x
  | ind, x :: xs => ind2 ind ++ emitVal ind x ++ (',' :: '\n' :: emitElems ind xs)

/-- Object members, one per line at indentation `ind`, comma-separated. -/
def emitFields : Nat → List (String × Json) → List Char
  | _, [] => []
  | ind, [(k, v)] => ind2 ind ++ emitStr k.data ++ (':' :: ' ' :: emitVal ind v)
  | ind, (k, v) :: kvs =>
    ind2 ind ++ emitStr k.data ++ (':' :: ' ' :: emitVal ind v) ++
      (',' :: '\n' :: emitFields ind kvs)

end

/-- Model of `JSON.stringify(value, null, 2)`. -/
def stringifyPretty (value : Json) : String := String.mk (emitVal 0 value)

mutual

/-- Node-count measure of a JSON value, used as parser fuel bound. -/
def jsize : Json → Nat
  | .null => 1
  | .bool _ => 1
  | .num _ => 1
  | .str _ => 1
  | .arr xs => 1 + jsizeL xs
  | .obj fs => 1 + jsizeF fs

def jsizeL : List Json → Nat
  | [] => 1
  | x :: xs => jsize x + jsizeL xs

def jsizeF : List (String × Json) → Nat
  | [] => 1
  | (_, v) :: fs => jsize v + jsizeF fs

end

/-- `handleDownloadJson` of `App.tsx`: a no-op when `result` is null,
otherwise a download of the pretty-printed result under the fixed file name. -/
def handleDownloadJson (s : AppState) : Option (String × String) :=
  match s.result with
  | none => none
  | some result => some ("financial_analysis_output.json", stringifyPretty result)

/-- The text rendered by the `ResultDisplay` component:
`JSON.stringify(result, null, 2)`. -/
def resultDisplayText (result : Json) : String := stringifyPretty result

example :
    stringifyPretty (.obj [("a", .arr [.num 1, .null])]) =
      "\x7b\n  \"a\": [\n    1,\n    null\n  ]\n\x7d" := rfl

example :
    parseJson (stringifyPretty (.obj [("a", .arr [.num 1, .str "x\ny"])])) =
      some (.obj [("a", .arr [.num 1, .str "x\ny"])]) := rfl

/-! ## Whitespace and parser congruence lemmas -/

theorem skipWs_cons_of_ws (c : Char) (l : List Char) (h : isWs c = true) :
    skipWs (c :: l) = skipWs l := by
  simp [skipWs, h]

theorem skipWs_cons_of_not_ws (c : Char) (l : List Char) (h : isWs c = false) :
    skipWs (c :: l) = c :: l := by
  simp [skipWs, h]

theorem skipWs_replicate_space (m : Nat) (l : List Char) :
    skipWs (List.replicate m ' ' ++ l) = skipWs l := by
  induction m with
  | zero => simp
  | succ m ih =>
    rw [List.replicate_succ, List.cons_append, skipWs_cons_of_ws _ _ (by decide)]
    exact ih

theorem skipWs_ind2 (n : Nat) (l : List Char) :
    skipWs (ind2 n ++ l) = skipWs l :=
  skipWs_replicate_space _ _

theorem skipWs_idem (l : List Char) : skipWs (skipWs l) = skipWs l := by
  induction l with
  | nil => rfl
  | cons c cs ih =>
    by_cases h : isWs c = true
    · rw [skipWs_cons_of_ws _ _ h]
      exact ih
    · rw [skipWs_cons_of_not_ws _ _ (by simpa using h),
        skipWs_cons_of_not_ws _ _ (by simpa using h)]

theorem parseVal_congr (f : Nat) (l1 l2 : List Char) (h : skipWs l1 = skipWs l2) :
    parseVal f l1 = parseVal f l2 := by
  cases f with
  | zero => rfl
  | succ f =>
    simp only [parseVal]
    rw [h]

theorem parseElems_congr (f : Nat) (l1 l2 : List Char) (h : skipWs l1 = skipWs l2) :
    parseElems f l1 = parseElems f l2 := by
  cases f with
  | zero => rfl
  | succ f =>
    simp only [parseElems]
    rw [parseVal_congr f l1 l2 h]

theorem parseFields_congr (f : Nat) (l1 l2 : List Char) (h : skipWs l1 = skipWs l2) :
    parseFields f l1 = parseFields f l2 := by
  cases f with
  | zero => rfl
  | succ f =>
    simp only [parseFields]
    rw [h]

/-! ## String escape round trip -/

theorem hexVal_digitChar (n : Nat) (h : n < 16) :
    hexVal (Nat.digitChar n) = some n := by
  interval_cases n <;> decide

theorem parseStrBody_emit (cs rest : List Char) :
    parseStrBody (emitStrBody cs ++ ('"' :: rest)) = some (cs, rest) := by
  induction cs with
  | nil =>
    simp only [emitStrBody, List.nil_append]
    rw [parseStrBody.eq_def]
    simp
  | cons c cs ih =>
    rw [emitStrBody, List.append_assoc]
    by_cases h1 : c = '"'
    · subst h1
      rw [escChar, if_pos rfl, List.cons_append, List.cons_append,
        parseStrBody.eq_def]
      simp [escDecode, ih]
    · by_cases h2 : c = '\\'
      · subst h2
        rw [escChar, if_neg (by decide), if_pos rfl, List.cons_append,
          List.cons_append, parseStrBody.eq_def]
        simp [escDecode, ih]
      · by_cases h3 : c.toNat = 8
        · have hc : Char.ofNat 8 = c := by rw [← h3, Char.ofNat_toNat]
          rw [escChar, if_neg h1, if_neg h2, if_pos h3, List.cons_append,
            List.cons_append, parseStrBody.eq_def]
          simp [escDecode, ih, hc] <;> exact hc
        · by_cases h4 : c.toNat = 9
          · have hc : '\t' = c := by
              rw [show ('\t' : Char) = Char.ofNat 9 from rfl, ← h4, Char.ofNat_toNat]
            rw [escChar, if_neg h1, if_neg h2, if_neg h3, if_pos h4,
              List.cons_append, List.cons_append, parseStrBody.eq_def]
            simp [escDecode, ih, hc] <;> exact hc
          · by_cases h5 : c.toNat = 10
            · have hc : '\n' = c := by
                rw [show ('\n' : Char) = Char.ofNat 10 from rfl, ← h5, Char.ofNat_toNat]
              rw [escChar, if_neg h1, if_neg h2, if_neg h3, if_neg h4, if_pos h5,
                List.cons_append, List.cons_append, parseStrBody.eq_def]
              simp [escDecode, ih, hc] <;> exact hc
            · by_cases h6 : c.toNat = 12
              · have hc : Char.ofNat 12 = c := by rw [← h6, Char.ofNat_toNat]
                rw [escChar, if_neg h1, if_neg h2, if_neg h3, if_neg h4, if_neg h5,
                  if_pos h6, List.cons_append, List.cons_append, parseStrBody.eq_def]
                simp [escDecode, ih, hc] <;> exact hc
              · by_cases h7 : c.toNat = 13
                · have hc : '\r' = c := by
                    rw [show ('\r' : Char) = Char.ofNat 13 from rfl, ← h7,
                      Char.ofNat_toNat]
                  rw [escChar, if_neg h1, if_neg h2, if_neg h3, if_neg h4, if_neg h5,
                    if_neg h6, if_pos h7, List.cons_append, List.cons_append,
                    parseStrBody.eq_def]
                  simp [escDecode, ih, hc] <;> exact hc
                · by_cases h8 : c.toNat < 32
                  · have hdiv : c.toNat / 16 < 16 := by omega
                    have hmod : c.toNat % 16 < 16 := by omega
                    have h0 : hexVal '0' = some 0 := by decide
                    rw [escChar, if_neg h1, if_neg h2, if_neg h3, if_neg h4, if_neg h5,
                      if_neg h6, if_neg h7, if_pos h8, List.cons_append,
                      List.cons_append, List.cons_append, List.cons_append,
                      List.cons_append, List.cons_append, parseStrBody.eq_def]
                    simp [h0, hexVal_digitChar _ hdiv, hexVal_digitChar _ hmod, ih]
                    rw [show c.toNat / 16 * 16 + c.toNat % 16 = c.toNat from by omega,
                      Char.ofNat_toNat]
                  · rw [escChar, if_neg h1, if_neg h2, if_neg h3, if_neg h4, if_neg h5,
                      if_neg h6, if_neg h7, if_neg h8, List.cons_append,
                      List.nil_append, parseStrBody.eq_def]
                    simp [h1, h2, ih]

/-! ## Decimal number round trip -/

/-- The input directly after a JSON number may not start with a digit. -/
def headNonDigit : List Char → Bool
  | [] => true
  | c :: _ => !c.isDigit

theorem digitChar_isDigit (n : Nat) (h : n < 10) :
    (Nat.digitChar n).isDigit = true := by
  interval_cases n <;> decide

theorem digitChar_toNat (n : Nat) (h : n < 10) : (Nat.digitChar n).toNat - 48 = n := by
  interval_cases n <;> decide

theorem natToDec_lt10 (m : Nat) (h : m < 10) : natToDec m = [Nat.digitChar m] := by
  cases m with
  | zero => rfl
  | succ k =>
    rw [natToDec, natToDecAux, if_pos h]

theorem natToDecAux_shift (m : Nat) : ∀ f acc, m ≤ f →
    natToDecAux f m acc = natToDec m ++ acc := by
  induction m using Nat.strong_induction_on with
  | _ m ih =>
    intro f acc hf
    by_cases h10 : m < 10
    · rw [natToDec_lt10 m h10]
      cases f with
      | zero =>
        have hm : m = 0 := by omega
        subst hm
        rfl
      | succ f =>
        rw [natToDecAux, if_pos h10]
        rfl
    · cases f with
      | zero => omega
      | succ f =>
        rw [natToDecAux, if_neg h10,
          ih (m / 10) (by omega) f (Nat.digitChar (m % 10) :: acc) (by omega)]
        have hm : ∃ k, m = k + 1 := ⟨m - 1, by omega⟩
        obtain ⟨k, hk⟩ := hm
        have hrhs : natToDec m = natToDec (m / 10) ++ [Nat.digitChar (m % 10)] := by
          rw [natToDec, hk, natToDecAux, if_neg (by omega)]
          rw [ih ((k + 1) / 10) (by omega) k (Nat.digitChar ((k + 1) % 10) :: [])
            (by omega)]
        rw [hrhs, List.append_assoc, List.singleton_append]

theorem natToDec_ge10 (m : Nat) (h : 10 ≤ m) :
    natToDec m = natToDec (m / 10) ++ [Nat.digitChar (m % 10)] := by
  have hm : ∃ k, m = k + 1 := ⟨m - 1, by omega⟩
  obtain ⟨k, hk⟩ := hm
  rw [natToDec, hk, natToDecAux, if_neg (by omega)]
  rw [natToDecAux_shift ((k + 1) / 10) k (Nat.digitChar ((k + 1) % 10) :: [])
    (by omega)]

theorem natToDec_head_digit (n : Nat) :
    ∃ d ds, natToDec n = d :: ds ∧ d.isDigit = true := by
  induction n using Nat.strong_induction_on with
  | _ n ih =>
    by_cases h10 : n < 10
    · exact ⟨Nat.digitChar n, [], natToDec_lt10 n h10, digitChar_isDigit n h10⟩
    · obtain ⟨d, ds, hd, hdig⟩ := ih (n / 10) (by omega)
      refine ⟨d, ds ++ [Nat.digitChar (n % 10)], ?_, hdig⟩
      rw [natToDec_ge10 n (by omega), hd, List.cons_append]

theorem parseNatAux_dec (n : Nat) : ∀ acc l,
    parseNatAux acc (natToDec n ++ l) =
      parseNatAux (acc * 10 ^ (natToDec n).length + n) l := by
  induction n using Nat.strong_induction_on with
  | _ n ih =>
    intro acc l
    by_cases h10 : n < 10
    · rw [natToDec_lt10 n h10, List.cons_append, parseNatAux,
        if_pos (digitChar_isDigit n h10), digitChar_toNat n h10]
      simp
    · rw [natToDec_ge10 n (by omega), List.append_assoc, List.singleton_append,
        ih (n / 10) (by omega) acc (Nat.digitChar (n % 10) :: l), parseNatAux,
        if_pos (digitChar_isDigit (n % 10) (by omega)),
        digitChar_toNat (n % 10) (by omega), List.length_append, List.length_cons,
        List.length_nil]
      have hpow : 10 ^ ((natToDec (n / 10)).length + (0 + 1)) =
          10 ^ (natToDec (n / 10)).length * 10 := by
        rw [pow_succ]
      rw [hpow]
      have hmul : (acc * 10 ^ (natToDec (n / 10)).length + n / 10) * 10 =
          acc * (10 ^ (natToDec (n / 10)).length * 10) + n / 10 * 10 := by
        ring
      rw [hmul]
      have := Nat.div_add_mod n 10
      congr 1
      omega

theorem parseNatAux_stop (acc : Nat) (l : List Char) (h : headNonDigit l = true) :
    parseNatAux acc l = (acc, l) := by
  cases l with
  | nil => rfl
  | cons c r =>
    have hc : c.isDigit = false := by
      simpa [headNonDigit] using h
    rw [parseNatAux, if_neg (by simp [hc])]

theorem parseNat_dec (n : Nat) (l : List Char) (h : headNonDigit l = true) :
    parseNat (natToDec n ++ l) = some (n, l) := by
  obtain ⟨d, ds, hd, hdig⟩ := natToDec_head_digit n
  have h0 := parseNatAux_dec n 0 l
  rw [hd, List.cons_append] at h0 ⊢
  rw [parseNatAux, if_pos hdig] at h0
  rw [parseNatAux_stop _ _ h] at h0
  simp only [Nat.zero_mul, Nat.zero_add] at h0
  rw [parseNat, if_pos hdig, h0]

/-! ## Size positivity and heads of emitted values -/

theorem jsize_pos (j : Json) : 1 ≤ jsize j := by
  cases j <;> simp [jsize] <;> omega

theorem jsizeL_pos (L : List Json) : 1 ≤ jsizeL L := by
  cases L with
  | nil => simp [jsizeL]
  | cons x xs =>
    have := jsize_pos x
    simp [jsizeL]
    omega

theorem jsizeF_pos (F : List (String × Json)) : 1 ≤ jsizeF F := by
  cases F with
  | nil => simp [jsizeF]
  | cons kv fs =>
    obtain ⟨k, v⟩ := kv
    have := jsize_pos v
    simp [jsizeF]
    omega

theorem isDigit_ne (c d : Char) (h : c.isDigit = true) (hd : d.isDigit = false) :
    c ≠ d := by
  intro e
  subst e
  rw [h] at hd
  simp at hd

theorem isDigit_not_ws (c : Char) (h : c.isDigit = true) : isWs c = false := by
  have h1 : c ≠ ' ' := isDigit_ne c ' ' h (by decide)
  have h2 : c ≠ '\n' := isDigit_ne c '\n' h (by decide)
  have h3 : c ≠ '\t' := isDigit_ne c '\t' h (by decide)
  have h4 : c ≠ '\r' := isDigit_ne c '\r' h (by decide)
  simp [isWs, h1, h2, h3, h4]

theorem emitVal_head (i : Nat) (j : Json) :
    ∃ c t, emitVal i j = c :: t ∧ isWs c = false ∧ c ≠ ']' ∧ c ≠ '\x7d' := by
  cases j with
  | null => exact ⟨'n', _, rfl, by decide, by decide, by decide⟩
  | bool b =>
    cases b
    · exact ⟨'f', _, rfl, by decide, by decide, by decide⟩
    · exact ⟨'t', _, rfl, by decide, by decide, by decide⟩
  | num n =>
    by_cases hneg : n < 0
    · refine ⟨'-', natToDec n.natAbs, ?_, by decide, by decide, by decide⟩
      simp [emitVal, emitInt, hneg]
    · obtain ⟨d, ds, hd, hdig⟩ := natToDec_head_digit n.toNat
      refine ⟨d, ds, ?_, isDigit_not_ws d hdig,
        isDigit_ne d ']' hdig (by decide), isDigit_ne d '\x7d' hdig (by decide)⟩
      simp [emitVal, emitInt, hneg, hd]
  | str s => exact ⟨'"', _, rfl, by decide, by decide, by decide⟩
  | arr xs =>
    cases xs with
    | nil => exact ⟨'[', _, rfl, by decide, by decide, by decide⟩
    | cons x xs => exact ⟨'[', _, rfl, by decide, by decide, by decide⟩
  | obj fs =>
    cases fs with
    | nil => exact ⟨'\x7b', _, rfl, by decide, by decide, by decide⟩
    | cons kv kvs => exact ⟨'\x7b', _, rfl, by decide, by decide, by decide⟩

/-! ## The printer-parser round trip -/

theorem digit_not_keyword (d : Char) (h : d.isDigit = true) :
    d ≠ 'n' ∧ d ≠ 't' ∧ d ≠ 'f' ∧ d ≠ '"' ∧ d ≠ '[' ∧ d ≠ '\x7b' ∧ d ≠ '-' :=
  ⟨isDigit_ne d 'n' h (by decide), isDigit_ne d 't' h (by decide),
    isDigit_ne d 'f' h (by decide), isDigit_ne d '"' h (by decide),
    isDigit_ne d '[' h (by decide), isDigit_ne d '\x7b' h (by decide),
    isDigit_ne d '-' h (by decide)⟩

theorem parse_emit_all (f : Nat) :
    (∀ j i rest, jsize j ≤ f → headNonDigit rest = true →
        parseVal f (emitVal i j ++ rest) = some (j, rest)) ∧
    (∀ L i m rest, L ≠ [] → jsizeL L ≤ f →
        parseElems f (emitElems i L ++ ('\n' :: (ind2 m ++ (']' :: rest)))) =
          some (L, rest)) ∧
    (∀ F i m rest, F ≠ [] → jsizeF F ≤ f →
        parseFields f (emitFields i F ++ ('\n' :: (ind2 m ++ ('\x7d' :: rest)))) =
          some (F, rest)) := by
  induction f with
  | zero =>
    refine ⟨?_, ?_, ?_⟩
    · intro j i rest hsz _
      have := jsize_pos j
      omega
    · intro L i m rest hne hsz
      have := jsizeL_pos L
      omega
    · intro F i m rest hne hsz
      have := jsizeF_pos F
      omega
  | succ f ih =>
    obtain ⟨ihP, ihQ, ihR⟩ := ih
    refine ⟨?_, ?_, ?_⟩
    · intro j i rest hsz hhd
      cases j with
      | null => simp [emitVal, parseVal, skipWs, isWs]
      | bool b => cases b <;> simp [emitVal, parseVal, skipWs, isWs]
      | num n =>
        by_cases hneg : n < 0
        · have hin : -((n.natAbs : Nat) : Int) = n := by omega
          simp only [emitVal, emitInt, if_pos hneg, List.cons_append]
          simp only [parseVal]
          rw [skipWs_cons_of_not_ws _ _ (by decide)]
          simp [parseNat_dec n.natAbs rest hhd, hin, abs_of_neg hneg]
        · obtain ⟨d, ds, hd, hdig⟩ := natToDec_head_digit n.toNat
          obtain ⟨hn1, hn2, hn3, hn4, hn5, hn6, hn7⟩ := digit_not_keyword d hdig
          have hin : ((n.toNat : Nat) : Int) = n := by omega
          have hpn : parseNat (d :: (ds ++ rest)) = some (n.toNat, rest) := by
            rw [← List.cons_append, ← hd]
            exact parseNat_dec n.toNat rest hhd
          simp only [emitVal, emitInt, if_neg hneg, hd, List.cons_append]
          simp only [parseVal]
          rw [skipWs_cons_of_not_ws _ _ (isDigit_not_ws d hdig)]
          simp [hn1, hn2, hn3, hn4, hn5, hn6, hn7, hdig, hpn, hin]
      | str s =>
        simp only [emitVal, emitStr, List.cons_append, List.append_assoc,
          List.singleton_append]
        simp only [parseVal]
        rw [skipWs_cons_of_not_ws _ _ (by decide)]
        simp [parseStrBody_emit s.data rest]
      | arr xs =>
        cases xs with
        | nil => simp [emitVal, parseVal, skipWs, isWs]
        | cons x xs =>
          have hszL : jsizeL (x :: xs) ≤ f := by
            simp only [jsize] at hsz
            omega
          simp only [emitVal, List.cons_append, List.nil_append, List.append_assoc,
            List.singleton_append]
          simp only [parseVal]
          rw [skipWs_cons_of_not_ws _ _ (by decide)]
          obtain ⟨c0, t0, hc0, hc0ws, hc0br, hc0brc⟩ := emitVal_head (i + 1) x
          have hEdecomp : ∃ Z, emitElems (i + 1) (x :: xs) =
              ind2 (i + 1) ++ (emitVal (i + 1) x ++ Z) := by
            cases xs with
            | nil => exact ⟨[], by simp [emitElems]⟩
            | cons y ys =>
              exact ⟨',' :: '\n' :: emitElems (i + 1) (y :: ys),
                by simp [emitElems, List.append_assoc]⟩
          obtain ⟨Z, hZ⟩ := hEdecomp
          have hskipC : skipWs ('\n' :: (emitElems (i + 1) (x :: xs) ++
              '\n' :: (ind2 i ++ ']' :: rest))) =
              c0 :: (t0 ++ (Z ++ '\n' :: (ind2 i ++ ']' :: rest))) := by
            rw [skipWs_cons_of_ws _ _ (by decide), hZ, List.append_assoc,
              skipWs_ind2, List.append_assoc, hc0, List.cons_append,
              skipWs_cons_of_not_ws _ _ hc0ws]
          have hback : parseElems f
              (c0 :: (t0 ++ (Z ++ '\n' :: (ind2 i ++ ']' :: rest)))) =
              some (x :: xs, rest) := by
            rw [parseElems_congr f _
              (emitElems (i + 1) (x :: xs) ++ '\n' :: (ind2 i ++ ']' :: rest))
              (by rw [← hskipC, skipWs_idem, skipWs_cons_of_ws _ _ (by decide)])]
            exact ihQ (x :: xs) (i + 1) i rest (by simp) hszL
          have e1 : ((('[' : Char)) = 'n') = False := by decide
          have e2 : ((('[' : Char)) = 't') = False := by decide
          have e3 : ((('[' : Char)) = 'f') = False := by decide
          have e4 : ((('[' : Char)) = '"') = False := by decide
          have e5 : ((('[' : Char)) = '[') = True := by decide
          simp only [e1, e2, e3, e4, e5, if_false, if_true]
          rw [hskipC]
          split
          · rename_i r1 heq
            rw [List.cons.injEq] at heq
            exact absurd heq.1 hc0br
          · simp [hback]
      | obj fs =>
        cases fs with
        | nil => simp [emitVal, parseVal, skipWs, isWs]
        | cons kv kvs =>
          have hszF : jsizeF (kv :: kvs) ≤ f := by
            simp only [jsize] at hsz
            omega
          obtain ⟨k, v⟩ := kv
          simp only [emitVal, List.cons_append, List.nil_append, List.append_assoc,
            List.singleton_append]
          simp only [parseVal]
          rw [skipWs_cons_of_not_ws _ _ (by decide)]
          have hFdecomp : ∃ Z, emitFields (i + 1) ((k, v) :: kvs) =
              ind2 (i + 1) ++ ('"' :: (emitStrBody k.data ++
                '"' :: ':' :: ' ' :: (emitVal (i + 1) v ++ Z))) := by
            cases kvs with
            | nil =>
              refine ⟨[], ?_⟩
              simp [emitFields, emitStr, List.append_assoc]
            | cons kv2 kvs2 =>
              refine ⟨',' :: '\n' :: emitFields (i + 1) (kv2 :: kvs2), ?_⟩
              simp [emitFields, emitStr, List.append_assoc]
          obtain ⟨Z, hZ⟩ := hFdecomp
          have hskipA : skipWs ('\n' :: (emitFields (i + 1) ((k, v) :: kvs) ++
              '\n' :: (ind2 i ++ '\x7d' :: rest))) =
              '"' :: (emitStrBody k.data ++
                '"' :: ':' :: ' ' :: (emitVal (i + 1) v ++
                  (Z ++ '\n' :: (ind2 i ++ '\x7d' :: rest)))) := by
            rw [skipWs_cons_of_ws _ _ (by decide), hZ, List.append_assoc,
              skipWs_ind2, List.cons_append,
              skipWs_cons_of_not_ws _ _ (by decide)]
            simp [List.append_assoc, List.cons_append]
          have hback : parseFields f
              ('"' :: (emitStrBody k.data ++
                '"' :: ':' :: ' ' :: (emitVal (i + 1) v ++
                  (Z ++ '\n' :: (ind2 i ++ '\x7d' :: rest))))) =
              some ((k, v) :: kvs, rest) := by
            rw [parseFields_congr f _
              (emitFields (i + 1) ((k, v) :: kvs) ++
                '\n' :: (ind2 i ++ '\x7d' :: rest))
              (by rw [← hskipA, skipWs_idem, skipWs_cons_of_ws _ _ (by decide)])]
            exact ihR ((k, v) :: kvs) (i + 1) i rest (by simp) hszF
          have e1 : ((('\x7b' : Char)) = 'n') = False := by decide
          have e2 : ((('\x7b' : Char)) = 't') = False := by decide
          have e3 : ((('\x7b' : Char)) = 'f') = False := by decide
          have e4 : ((('\x7b' : Char)) = '"') = False := by decide
          have e5 : ((('\x7b' : Char)) = '[') = False := by decide
          have e6 : ((('\x7b' : Char)) = '\x7b') = True := by decide
          simp only [e1, e2, e3, e4, e5, e6, if_false, if_true]
          rw [hskipA]
          simp [hback]
    · intro L i m rest hne hsz
      obtain ⟨x, xs, rfl⟩ : ∃ y ys, L = y :: ys := by
        cases L with
        | nil => exact absurd rfl hne
        | cons a as => exact ⟨a, as, rfl⟩
      cases xs with
      | nil =>
        have hszx : jsize x ≤ f := by
          simp only [jsizeL] at hsz
          omega
        simp only [emitElems, List.append_assoc]
        simp only [parseElems]
        rw [parseVal_congr f _
          (emitVal i x ++ ('\n' :: (ind2 m ++ (']' :: rest))))
          (by rw [skipWs_ind2])]
        rw [ihP x i ('\n' :: (ind2 m ++ (']' :: rest))) hszx (by simp [headNonDigit])]
        have hT : skipWs ('\n' :: (ind2 m ++ (']' :: rest))) = ']' :: rest := by
          rw [skipWs_cons_of_ws _ _ (by decide), skipWs_ind2,
            skipWs_cons_of_not_ws _ _ (by decide)]
        simp [hT]
      | cons y ys =>
        have hbx := jsize_pos x
        have hby := jsize_pos y
        have hbys := jsizeL_pos ys
        have hszx : jsize x ≤ f := by
          simp only [jsizeL] at hsz
          omega
        have hszys : jsizeL (y :: ys) ≤ f := by
          simp only [jsizeL] at hsz ⊢
          omega
        simp only [emitElems, List.append_assoc, List.cons_append]
        simp only [parseElems]
        rw [parseVal_congr f _
          (emitVal i x ++ (',' :: '\n' :: (emitElems i (y :: ys) ++
            ('\n' :: (ind2 m ++ (']' :: rest))))))
          (by rw [skipWs_ind2])]
        rw [ihP x i (',' :: '\n' :: (emitElems i (y :: ys) ++
          ('\n' :: (ind2 m ++ (']' :: rest))))) hszx (by simp [headNonDigit])]
        have hsk : skipWs (',' :: '\n' :: (emitElems i (y :: ys) ++
            ('\n' :: (ind2 m ++ (']' :: rest))))) =
            ',' :: '\n' :: (emitElems i (y :: ys) ++
              ('\n' :: (ind2 m ++ (']' :: rest)))) :=
          skipWs_cons_of_not_ws _ _ (by decide)
        have hrec : parseElems f ('\n' :: (emitElems i (y :: ys) ++
            ('\n' :: (ind2 m ++ (']' :: rest))))) = some (y :: ys, rest) := by
          rw [parseElems_congr f _
            (emitElems i (y :: ys) ++ ('\n' :: (ind2 m ++ (']' :: rest))))
            (skipWs_cons_of_ws _ _ (by decide))]
          exact ihQ (y :: ys) i m rest (by simp) hszys
        simp [hsk, hrec]
    · intro F i m rest hne hsz
      obtain ⟨kv, kvs, rfl⟩ : ∃ y ys, F = y :: ys := by
        cases F with
        | nil => exact absurd rfl hne
        | cons a as => exact ⟨a, as, rfl⟩
      obtain ⟨k, v⟩ := kv
      have hbv := jsize_pos v
      have hbkvs := jsizeF_pos kvs
      have hszv : jsize v ≤ f := by
        simp only [jsizeF] at hsz
        omega
      cases kvs with
      | nil =>
        simp only [emitFields, emitStr, List.append_assoc, List.cons_append,
          List.singleton_append]
        simp only [parseFields]
        rw [skipWs_ind2, skipWs_cons_of_not_ws _ _ (by decide)]
        have hval : parseVal f (' ' :: (emitVal i v ++
            ('\n' :: (ind2 m ++ ('\x7d' :: rest))))) =
            some (v, '\n' :: (ind2 m ++ ('\x7d' :: rest))) := by
          rw [parseVal_congr f _
            (emitVal i v ++ ('\n' :: (ind2 m ++ ('\x7d' :: rest))))
            (skipWs_cons_of_ws _ _ (by decide))]
          exact ihP v i _ hszv (by simp [headNonDigit])
        have hT : skipWs ('\n' :: (ind2 m ++ ('\x7d' :: rest))) = '\x7d' :: rest := by
          rw [skipWs_cons_of_ws _ _ (by decide), skipWs_ind2,
            skipWs_cons_of_not_ws _ _ (by decide)]
        have hcol : skipWs (':' :: ' ' :: (emitVal i v ++
            '\n' :: (ind2 m ++ '\x7d' :: rest))) =
            ':' :: ' ' :: (emitVal i v ++ '\n' :: (ind2 m ++ '\x7d' :: rest)) :=
          skipWs_cons_of_not_ws _ _ (by decide)
        simp [parseStrBody_emit, hcol, hval, hT]
      | cons kv2 kvs2 =>
        have hszkvs : jsizeF (kv2 :: kvs2) ≤ f := by
          obtain ⟨k2, v2⟩ := kv2
          simp only [jsizeF] at hsz ⊢
          omega
        simp only [emitFields, emitStr, List.append_assoc, List.cons_append,
          List.singleton_append]
        simp only [parseFields]
        rw [skipWs_ind2, skipWs_cons_of_not_ws _ _ (by decide)]
        have hval : parseVal f (' ' :: (emitVal i v ++
            (',' :: '\n' :: (emitFields i (kv2 :: kvs2) ++
              ('\n' :: (ind2 m ++ ('\x7d' :: rest))))))) =
            some (v, ',' :: '\n' :: (emitFields i (kv2 :: kvs2) ++
              ('\n' :: (ind2 m ++ ('\x7d' :: rest))))) := by
          rw [parseVal_congr f _
            (emitVal i v ++ (',' :: '\n' :: (emitFields i (kv2 :: kvs2) ++
              ('\n' :: (ind2 m ++ ('\x7d' :: rest))))))
            (skipWs_cons_of_ws _ _ (by decide))]
          exact ihP v i _ hszv (by simp [headNonDigit])
        have hsk : skipWs (',' :: '\n' :: (emitFields i (kv2 :: kvs2) ++
            ('\n' :: (ind2 m ++ ('\x7d' :: rest))))) =
            ',' :: '\n' :: (emitFields i (kv2 :: kvs2) ++
              ('\n' :: (ind2 m ++ ('\x7d' :: rest)))) :=
          skipWs_cons_of_not_ws _ _ (by decide)
        have hrec : parseFields f ('\n' :: (emitFields i (kv2 :: kvs2) ++
            ('\n' :: (ind2 m ++ ('\x7d' :: rest))))) =
            some (kv2 :: kvs2, rest) := by
          rw [parseFields_congr f _
            (emitFields i (kv2 :: kvs2) ++ ('\n' :: (ind2 m ++ ('\x7d' :: rest))))
            (skipWs_cons_of_ws _ _ (by decide))]
          exact ihR (kv2 :: kvs2) i m rest (by simp) hszkvs
        have hcol : skipWs (':' :: ' ' :: (emitVal i v ++
            (',' :: '\n' :: (emitFields i (kv2 :: kvs2) ++
              '\n' :: (ind2 m ++ '\x7d' :: rest))))) =
            ':' :: ' ' :: (emitVal i v ++
              (',' :: '\n' :: (emitFields i (kv2 :: kvs2) ++
                '\n' :: (ind2 m ++ '\x7d' :: rest)))) :=
          skipWs_cons_of_not_ws _ _ (by decide)
        simp [parseStrBody_emit, hcol, hval, hsk, hrec]

theorem emit_len_all (f : Nat) :
    (∀ j, jsize j ≤ f → ∀ i, jsize j ≤ (emitVal i j).length) ∧
    (∀ L, jsizeL L ≤ f → ∀ i, jsizeL L ≤ (emitElems i L).length + 1) ∧
    (∀ F, jsizeF F ≤ f → ∀ i, jsizeF F ≤ (emitFields i F).length + 1) := by
  induction f with
  | zero =>
    refine ⟨?_, ?_, ?_⟩
    · intro j hsz i
      have := jsize_pos j
      omega
    · intro L hsz i
      have := jsizeL_pos L
      omega
    · intro F hsz i
      have := jsizeF_pos F
      omega
  | succ f ih =>
    obtain ⟨ihP, ihQ, ihR⟩ := ih
    refine ⟨?_, ?_, ?_⟩
    · intro j hsz i
      cases j with
      | null => simp [emitVal, jsize]
      | bool b => cases b <;> simp [emitVal, jsize]
      | num n =>
        have hne : emitInt n ≠ [] := by
          unfold emitInt
          by_cases hneg : n < 0
          · simp [hneg]
          · obtain ⟨d, ds, hd, _⟩ := natToDec_head_digit n.toNat
            simp [hneg, hd]
        have hlen : 1 ≤ (emitInt n).length := List.length_pos.mpr hne
        simpa [emitVal, jsize] using hlen
      | str s =>
        simp [emitVal, emitStr, jsize]
      | arr xs =>
        cases xs with
        | nil => simp [emitVal, jsize, jsizeL]
        | cons x xs =>
          have hszL : jsizeL (x :: xs) ≤ f := by
            simp only [jsize] at hsz
            omega
          have hq := ihQ (x :: xs) hszL (i + 1)
          simp only [emitVal, jsize]
          simp [List.length_append, ind2]
          omega
      | obj fs =>
        cases fs with
        | nil => simp [emitVal, jsize, jsizeF]
        | cons kv kvs =>
          have hszF : jsizeF (kv :: kvs) ≤ f := by
            simp only [jsize] at hsz
            omega
          have hr := ihR (kv :: kvs) hszF (i + 1)
          simp only [emitVal, jsize]
          simp [List.length_append, ind2]
          omega
    · intro L hsz i
      cases L with
      | nil => simp [emitElems, jsizeL]
      | cons x xs =>
        cases xs with
        | nil =>
          have hszx : jsize x ≤ f := by
            simp only [jsizeL] at hsz
            omega
          have hp := ihP x hszx i
          simp only [emitElems, jsizeL, jsizeL.eq_1]
          simp [List.length_append]
          omega
        | cons y ys =>
          have hbx := jsize_pos x
          have hby := jsize_pos y
          have hbys := jsizeL_pos ys
          have hszx : jsize x ≤ f := by
            simp only [jsizeL] at hsz
            omega
          have hszys : jsizeL (y :: ys) ≤ f := by
            simp only [jsizeL] at hsz ⊢
            omega
          have hp := ihP x hszx i
          have hq := ihQ (y :: ys) hszys i
          simp only [jsizeL] at hq ⊢
          simp only [emitElems]
          simp [List.length_append]
          omega
    · intro F hsz i
      cases F with
      | nil => simp [emitFields, jsizeF]
      | cons kv kvs =>
        obtain ⟨k, v⟩ := kv
        cases kvs with
        | nil =>
          have hszv : jsize v ≤ f := by
            simp only [jsizeF] at hsz
            omega
          have hp := ihP v hszv i
          simp only [emitFields, jsizeF, jsizeF.eq_1]
          simp [List.length_append]
          omega
        | cons kv2 kvs2 =>
          have hbv := jsize_pos v
          have hszv : jsize v ≤ f := by
            obtain ⟨k2, v2⟩ := kv2
            have := jsize_pos v2
            have := jsizeF_pos kvs2
            simp only [jsizeF] at hsz
            omega
          have hszkvs : jsizeF (kv2 :: kvs2) ≤ f := by
            obtain ⟨k2, v2⟩ := kv2
            simp only [jsizeF] at hsz ⊢
            omega
          have hp := ihP v hszv i
          have hr := ihR (kv2 :: kvs2) hszkvs i
          simp only [jsizeF] at hr ⊢
          simp only [emitFields]
          simp [List.length_append]
          omega

/-- `JSON.parse` inverts `JSON.stringify(·, null, 2)` on every JSON value. -/
theorem parseJson_stringify (j : Json) :
    parseJson (stringifyPretty j) = some j := by
  have hlen : jsize j ≤ (emitVal 0 j).length + 1 := by
    have h := (emit_len_all (jsize j)).1 j (le_refl _) 0
    omega
  have hp := (parse_emit_all ((emitVal 0 j).length + 1)).1 j 0 [] hlen
    (by simp [headNonDigit])
  rw [List.append_nil] at hp
  unfold parseJson stringifyPretty
  simp [hp, skipWs]

/-- C7: for a fully successful run whose held result conforms to the
`MacroAnalysisResult` interface with `N` items, the pretty-printed JSON shown
by `ResultDisplay` and produced by `handleDownloadJson` round-trips exactly
(`JSON.parse` of the serialized text yields a structurally equal value), the
reparsed value still decodes to the same `N`-item result, and the downloaded
file is named `financial_analysis_output.json`. -/
theorem claim7_roundtrip_download (s : AppState) (r : Json)
    (mr : MacroAnalysisResult) (N : Nat)
    (hres : s.result = some r) (hconf : decodeResult r = some mr)
    (hN : mr.macro_analysis.length = N) :
    handleDownloadJson s =
      some ("financial_analysis_output.json", stringifyPretty r) ∧
    resultDisplayText r = stringifyPretty r ∧
    parseJson (stringifyPretty r) = some r ∧
    ∀ j2, parseJson (stringifyPretty r) = some j2 →
      ∃ mr2, decodeResult j2 = some mr2 ∧ mr2.macro_analysis.length = N := by
  refine ⟨?_, rfl, parseJson_stringify r, ?_⟩
  · simp [handleDownloadJson, hres]
  · intro j2 hj2
    rw [parseJson_stringify r] at hj2
    have hrj : r = j2 := by
      injection hj2
    subst hrj
    exact ⟨mr, hconf, hN⟩

def sampleResultJson : Json :=
  Json.obj [("macro_analysis", Json.arr [Json.obj
    [("news_summary", Json.str "a"),
     ("identified_macro_factors", Json.arr [Json.str "b"]),
     ("impact_analysis", Json.str "c")]])]

def sampleAppState : AppState :=
  { isLoading := false, statusMessage := "Analysis complete.",
    result := some sampleResultJson, error := none }

theorem claim7_witness :
    handleDownloadJson sampleAppState =
      some ("financial_analysis_output.json", stringifyPretty sampleResultJson) ∧
    resultDisplayText sampleResultJson = stringifyPretty sampleResultJson ∧
    parseJson (stringifyPretty sampleResultJson) = some sampleResultJson ∧
    ∀ j2, parseJson (stringifyPretty sampleResultJson) = some j2 →
      ∃ mr2, decodeResult j2 = some mr2 ∧ mr2.macro_analysis.length = 1 :=
  claim7_roundtrip_download sampleAppState sampleResultJson ⟨[⟨"a", ["b"], "c"⟩]⟩ 1
    rfl rfl rfl
